import Mathlib

/-!
Shallow embedding of the Redmine MCP server (tool layer `tools.ts` and HTTP
client `src/redmine/client.ts`): per-request credential resolution from
transport headers, request construction for the six Redmine operations,
response handling, and the tool-boundary error envelope.

JS conventions modelled explicitly:
* `string | string[] | undefined` header values become `Option HeaderValue`;
* JS truthiness on `string | undefined` (falsy iff `undefined` or `""`)
  becomes `jsTruthy`;
* JS numbers are modelled as `Int` (no claim involves fractional values);
* a thrown `Error` becomes the `RmError` sum, whose `message` function
  reproduces the exact message strings built at each throw site.
-/

/-- A JS header value: a single string or an array of strings
(`IsomorphicHeaders` gives `string | string[]`). -/
inductive HeaderValue where
  | str (s : String)
  | arr (l : List String)
deriving DecidableEq, Repr

/-- A header mapping: association list, first binding wins (a JS object has
unique keys; lookup returns the value bound to the key or `undefined`). -/
abbrev Headers := List (String × HeaderValue)

/-- Lookup of `headers[key]` in a JS object: `none` models `undefined`. -/
def lookupHeader (hs : Headers) (key : String) : Option HeaderValue :=
  (hs.find? (fun kv => kv.1 = key)).map (fun kv => kv.2)

/-- Embedding of `getHeaderValue` (tools.ts): `undefined` headers give
`undefined`; an array value gives `value[0]` (which is `undefined` for an
empty array, i.e. `List.head?`); a string value is returned as is. -/
def getHeaderValue (headers : Option Headers) (key : String) : Option String :=
  match headers with
  | none => none
  | some hs =>
    match lookupHeader hs key with
    | none => none
    | some (.arr l) => l.head?
    | some (.str s) => some s

/-- JS truthiness of a `string | undefined` value: falsy iff `undefined`
or the empty string. -/
def jsTruthy : Option String → Bool
  | none => false
  | some s => s ≠ ""

/-- The error kinds of the spec, each carrying what the code puts in the
thrown `Error`. `configuration` covers the three configuration throw sites,
`redmineApi` the non-2xx branch of `request`, `decode` a JSON parse
failure, `network` a rejected fetch. -/
inductive RmError where
  | configuration (msg : String)
  | redmineApi (status : Nat) (body : String)
  | decode (msg : String)
  | network (msg : String)
deriving DecidableEq, Repr

/-- The `message` of the thrown `Error`, exactly as the code builds it. -/
def RmError.message : RmError → String
  | .configuration msg => msg
  | .redmineApi status body => "Redmine API error: " ++ toString status ++ " - " ++ body
  | .decode msg => msg
  | .network msg => msg

/-- Message of the constructor throw when `baseUrl` is empty. -/
def urlMissingMsg : String :=
  "Redmine URL is not configured. Set x-redmine-url header."

/-- Message of the constructor throw when `apiKey` is empty. -/
def apiKeyMissingMsg : String :=
  "Redmine API Key is not configured. Set x-redmine-api-key header."

/-- Message of the `getClientFromExtra` throw when headers are unavailable. -/
def headersUnavailableMsg : String :=
  "Request headers not available"

/-- Message of the `getClientFromExtra` throw when a required header is
missing or empty. -/
def configNotFoundMsg : String :=
  "Redmine configuration not found. Set x-redmine-url and x-redmine-api-key headers in your request."

/-- `baseUrl.replace(/\/$/, '')` on the character list: remove exactly one
trailing slash if present. -/
def stripSlashL (l : List Char) : List Char :=
  if l.getLast? = some '/' then l.dropLast else l

/-- `baseUrl.replace(/\/$/, '')`: strip exactly one trailing `/`. -/
def stripTrailingSlash (s : String) : String :=
  String.mk (stripSlashL s.data)

/-- The `RedmineClient` state: normalized base URL and API key. -/
structure RedmineClient where
  baseUrl : String
  apiKey : String
deriving DecidableEq, Repr

/-- Embedding of the `RedmineClient` constructor: throws on an empty
`baseUrl` or `apiKey` (JS `!s` on a string is `s = ""`), otherwise stores
the slash-stripped base URL and the key. -/
def RedmineClient.make (baseUrl apiKey : String) : Except RmError RedmineClient :=
  if baseUrl = "" then .error (.configuration urlMissingMsg)
  else if apiKey = "" then .error (.configuration apiKeyMissingMsg)
  else .ok { baseUrl := stripTrailingSlash baseUrl, apiKey := apiKey }

/-- `extra.requestInfo` as handed to a tool handler. -/
structure RequestInfo where
  headers : Option Headers
deriving DecidableEq, Repr

/-- The `extra` argument of a tool handler: `requestInfo` may be absent. -/
structure Extra where
  requestInfo : Option RequestInfo
deriving DecidableEq, Repr

/-- `extra.requestInfo?.headers`: optional chaining. -/
def extraHeaders (extra : Extra) : Option Headers :=
  extra.requestInfo.bind (fun ri => ri.headers)

/-- Embedding of `getClientFromExtra` (tools.ts): fail when headers are
unavailable; resolve both required headers; fail when either is missing or
empty (JS `!redmineUrl || !redmineApiKey`); otherwise construct the client. -/
def getClientFromExtra (extra : Extra) : Except RmError RedmineClient :=
  match extraHeaders extra with
  | none => .error (.configuration headersUnavailableMsg)
  | some hs =>
    let redmineUrl := getHeaderValue (some hs) "x-redmine-url"
    let redmineApiKey := getHeaderValue (some hs) "x-redmine-api-key"
    if !(jsTruthy redmineUrl) || !(jsTruthy redmineApiKey) then
      .error (.configuration configNotFoundMsg)
    else
      RedmineClient.make (redmineUrl.getD "") (redmineApiKey.getD "")

/-- Upper-case hexadecimal digit of a value below 16, as produced by the
URL-encoded serializer (`%2C`, `%3A`, ...). -/
def hexDigit (n : Nat) : Char :=
  if n < 10 then Char.ofNat (48 + n) else Char.ofNat (55 + n)

/-- UTF-8 bytes of a code point, as `Nat`s below 256. -/
def utf8Bytes (c : Nat) : List Nat :=
  if c < 0x80 then [c]
  else if c < 0x800 then [0xC0 + c / 64, 0x80 + c % 64]
  else if c < 0x10000 then [0xE0 + c / 4096, 0x80 + c / 64 % 64, 0x80 + c % 64]
  else [0xF0 + c / 262144, 0x80 + c / 4096 % 64, 0x80 + c / 64 % 64, 0x80 + c % 64]

/-- Characters the `application/x-www-form-urlencoded` serializer (used by
`URLSearchParams.toString`) leaves unescaped: ASCII alphanumerics and
`*`, `-`, `.`, `_`. -/
def safeChar (c : Char) : Bool :=
  c.isAlphanum || c = '*' || c = '-' || c = '.' || c = '_'

/-- URL-encode one character: space becomes `+`, safe characters stay,
anything else becomes `%XX` per UTF-8 byte. -/
def encodeChar (c : Char) : List Char :=
  if c = ' ' then ['+']
  else if safeChar c then [c]
  else (utf8Bytes c.toNat).flatMap (fun b => ['%', hexDigit (b / 16), hexDigit (b % 16)])

/-- URL-encode a string to a character list. -/
def encodeL (s : String) : List Char :=
  s.data.flatMap encodeChar

/-- One `key=value` component of a query string. -/
def queryPart (kv : String × String) : List Char :=
  encodeL kv.1 ++ '=' :: encodeL kv.2

/-- Embedding of `URLSearchParams.toString` applied to the pairs set in
order: `k1=v1&k2=v2&...`, URL-encoded. -/
def renderQueryL (pairs : List (String × String)) : List Char :=
  ['&'].intercalate (pairs.map queryPart)

/-- `URLSearchParams.toString` as a string. -/
def renderQuery (pairs : List (String × String)) : String :=
  String.mk (renderQueryL pairs)

/-- The `${queryString ? `?${queryString}` : ''}` suffix appended to a base
path: empty when there are no query pairs, otherwise `?` followed by the
rendered query. -/
def querySuffix (pairs : List (String × String)) : String :=
  let qs := renderQuery pairs
  if qs = "" then "" else "?" ++ qs

/-- Specification-side parser: the parameter names occurring in a raw query
string (split on `&`, take each component up to the first `=`). Used to
state exact absence or presence of a parameter in the query string. -/
def queryNames (qs : List Char) : List (List Char) :=
  if qs = [] then [] else (qs.splitOn '&').map (fun part => part.takeWhile (fun c => c ≠ '='))

/-- Specification-side parser: the raw query string of a request path
(everything after the first `?`, empty when there is none). -/
def pathQuery (path : String) : List Char :=
  ((path.data.dropWhile (fun c => c ≠ '?')).drop 1)

/-- Specification-side parser: the parameter names of a request path. -/
def pathQueryNames (path : String) : List (List Char) :=
  queryNames (pathQuery path)

/-- A JSON value, for request bodies and decoded responses. -/
inductive Json where
  | null
  | bool (b : Bool)
  | num (n : Int)
  | str (s : String)
  | arr (l : List Json)
  | obj (fields : List (String × Json))

/-- Escape a character inside a JSON string literal. Control characters
other than newline, tab and carriage return are left as is: no claim
depends on their rendering. -/
def escapeJsonChar (c : Char) : String :=
  if c = '"' then "\\\""
  else if c = '\\' then "\\\\"
  else if c = '\n' then "\\n"
  else if c = '\t' then "\\t"
  else if c = '\r' then "\\r"
  else String.mk [c]

/-- Escape a JSON string literal body. -/
def escapeJson (s : String) : String :=
  String.join (s.data.map escapeJsonChar)

mutual

/-- Serialize a JSON value. Models `JSON.stringify` up to inter-token
whitespace (the code passes indent 2; no claim depends on whitespace). -/
def renderJson : Json → String
  | .null => "null"
  | .bool b => if b then "true" else "false"
  | .num n => toString n
  | .str s => "\"" ++ escapeJson s ++ "\""
  | .arr l => "[" ++ renderJsonArr l ++ "]"
  | .obj fields => "\x7b" ++ renderJsonObj fields ++ "\x7d"

/-- Serialize array elements, comma-separated. -/
def renderJsonArr : List Json → String
  | [] => ""
  | [j] => renderJson j
  | j :: rest => renderJson j ++ "," ++ renderJsonArr rest

/-- Serialize object fields, comma-separated. -/
def renderJsonObj : List (String × Json) → String
  | [] => ""
  | [kv] => "\"" ++ escapeJson kv.1 ++ "\":" ++ renderJson kv.2
  | kv :: rest => "\"" ++ escapeJson kv.1 ++ "\":" ++ renderJson kv.2 ++ "," ++ renderJsonObj rest

end

/-- A field of a serialized JS object literal: an `undefined` value makes
`JSON.stringify` omit the property entirely. -/
def optField (name : String) (v : Option Json) : List (String × Json) :=
  match v with
  | some j => [(name, j)]
  | none => []

/-- The parameter object of `listProjects` (all properties optional). -/
structure ListProjectsParams where
  offset : Option Int := none
  limit : Option Int := none
  «include» : Option String := none
deriving DecidableEq, Repr

/-- The parameter object of `listIssues` (all properties optional). -/
structure ListIssuesParams where
  offset : Option Int := none
  limit : Option Int := none
  sort : Option String := none
  «include» : Option String := none
  project_id : Option String := none
  tracker_id : Option String := none
  status_id : Option String := none
  assigned_to_id : Option String := none
deriving DecidableEq, Repr

/-- The `createIssue` parameter object: `project_id` and `subject`
required, the rest optional. JS numbers are modelled as `Int`. -/
structure CreateIssueParams where
  project_id : String
  subject : String
  description : Option String := none
  tracker_id : Option Int := none
  status_id : Option Int := none
  priority_id : Option Int := none
  assigned_to_id : Option Int := none
  category_id : Option Int := none
  parent_issue_id : Option Int := none
  estimated_hours : Option Int := none
  start_date : Option String := none
  due_date : Option String := none
deriving DecidableEq, Repr

/-- The `updateIssue` parameter object: everything optional. -/
structure UpdateIssueParams where
  subject : Option String := none
  description : Option String := none
  tracker_id : Option Int := none
  status_id : Option Int := none
  priority_id : Option Int := none
  assigned_to_id : Option Int := none
  category_id : Option Int := none
  parent_issue_id : Option Int := none
  estimated_hours : Option Int := none
  start_date : Option String := none
  due_date : Option String := none
  done_ratio : Option Int := none
  notes : Option String := none
  private_notes : Option Bool := none
deriving DecidableEq, Repr

/-- An outbound HTTP request as `request` assembles it: method, full URL,
headers, and the JSON body (`undefined` for GET). The wire body is
`JSON.stringify` of the value when present. -/
structure HttpRequest where
  method : String
  url : String
  headers : List (String × String)
  body : Option Json

/-- The shared request assembly of `RedmineClient.request`: URL is
`baseUrl + path`; headers are the API key and content type. -/
def RedmineClient.buildRequest (c : RedmineClient) (method path : String)
    (body : Option Json) : HttpRequest :=
  { method := method
    url := c.baseUrl ++ path
    headers := [("X-Redmine-API-Key", c.apiKey), ("Content-Type", "application/json")]
    body := body }

/-- The `if (x !== undefined) query.set(name, String(x))` idiom on a JS
number: set the pair whenever the value is present, `0` included. -/
def setIfDefinedInt (name : String) (v : Option Int) : List (String × String) :=
  match v with
  | some n => [(name, toString n)]
  | none => []

/-- The `if (x !== undefined) query.set(name, String(x))` idiom on a JS
string: set the pair whenever the value is present, `""` included. -/
def setIfDefinedStr (name : String) (v : Option String) : List (String × String) :=
  match v with
  | some s => [(name, s)]
  | none => []

/-- The `if (x) query.set(name, x)` idiom on a JS string: set the pair
only when the value is truthy, so `""` is suppressed like `undefined`. -/
def setIfTruthy (name : String) (v : Option String) : List (String × String) :=
  match v with
  | some s => if s ≠ "" then [(name, s)] else []
  | none => []

/-- Query pairs set by `listProjects`, in source order: `offset` and
`limit` when not `undefined` (JS `!== undefined`), `include` when truthy. -/
def listProjectsQuery : Option ListProjectsParams → List (String × String)
  | none => []
  | some p =>
    setIfDefinedInt "offset" p.offset ++
    setIfDefinedInt "limit" p.limit ++
    setIfTruthy "include" p.«include»

/-- The request path built by `listProjects`. -/
def listProjectsPath (params : Option ListProjectsParams) : String :=
  "/projects.json" ++ querySuffix (listProjectsQuery params)

/-- Embedding of `RedmineClient.listProjects`: a GET with no body. -/
def RedmineClient.listProjects (c : RedmineClient)
    (params : Option ListProjectsParams) : HttpRequest :=
  c.buildRequest "GET" (listProjectsPath params) none

/-- Query pairs set by `getProject`: `include` when truthy. -/
def getProjectQuery (inc : Option String) : List (String × String) :=
  setIfTruthy "include" inc

/-- The request path built by `getProject` (`id` is a string: project id or
identifier). -/
def getProjectPath (id : String) (inc : Option String) : String :=
  "/projects/" ++ id ++ ".json" ++ querySuffix (getProjectQuery inc)

/-- Embedding of `RedmineClient.getProject`. -/
def RedmineClient.getProject (c : RedmineClient) (id : String)
    (inc : Option String) : HttpRequest :=
  c.buildRequest "GET" (getProjectPath id inc) none

/-- Query pairs set by `listIssues`, in source order: `offset`, `limit`
with the `!== undefined` test; `sort`, `include` with the truthiness test;
the four id filters with the `!== undefined` test (`String(...)` on a
string is the identity). -/
def listIssuesQuery : Option ListIssuesParams → List (String × String)
  | none => []
  | some p =>
    setIfDefinedInt "offset" p.offset ++
    setIfDefinedInt "limit" p.limit ++
    setIfTruthy "sort" p.sort ++
    setIfTruthy "include" p.«include» ++
    setIfDefinedStr "project_id" p.project_id ++
    setIfDefinedStr "tracker_id" p.tracker_id ++
    setIfDefinedStr "status_id" p.status_id ++
    setIfDefinedStr "assigned_to_id" p.assigned_to_id

/-- The request path built by `listIssues`. -/
def listIssuesPath (params : Option ListIssuesParams) : String :=
  "/issues.json" ++ querySuffix (listIssuesQuery params)

/-- Embedding of `RedmineClient.listIssues`: a GET with no body. -/
def RedmineClient.listIssues (c : RedmineClient)
    (params : Option ListIssuesParams) : HttpRequest :=
  c.buildRequest "GET" (listIssuesPath params) none

/-- Query pairs set by `getIssue`: `include` when truthy. -/
def getIssueQuery (inc : Option String) : List (String × String) :=
  setIfTruthy "include" inc

/-- The request path built by `getIssue` (`id` is a number). -/
def getIssuePath (id : Int) (inc : Option String) : String :=
  "/issues/" ++ toString id ++ ".json" ++ querySuffix (getIssueQuery inc)

/-- Embedding of `RedmineClient.getIssue`. -/
def RedmineClient.getIssue (c : RedmineClient) (id : Int)
    (inc : Option String) : HttpRequest :=
  c.buildRequest "GET" (getIssuePath id inc) none

/-- The serialized `create` parameter object: `JSON.stringify` drops
properties whose value is `undefined`, so only present fields appear. -/
def createIssueParamsJson (p : CreateIssueParams) : Json :=
  .obj (
    [("project_id", .str p.project_id), ("subject", .str p.subject)] ++
    optField "description" (p.description.map .str) ++
    optField "tracker_id" (p.tracker_id.map .num) ++
    optField "status_id" (p.status_id.map .num) ++
    optField "priority_id" (p.priority_id.map .num) ++
    optField "assigned_to_id" (p.assigned_to_id.map .num) ++
    optField "category_id" (p.category_id.map .num) ++
    optField "parent_issue_id" (p.parent_issue_id.map .num) ++
    optField "estimated_hours" (p.estimated_hours.map .num) ++
    optField "start_date" (p.start_date.map .str) ++
    optField "due_date" (p.due_date.map .str))

/-- Embedding of `RedmineClient.createIssue`: POST `/issues.json` with body
`{issue: params}`. -/
def RedmineClient.createIssue (c : RedmineClient)
    (params : CreateIssueParams) : HttpRequest :=
  c.buildRequest "POST" "/issues.json" (some (.obj [("issue", createIssueParamsJson params)]))

/-- The serialized `update` parameter object (`undefined` fields dropped). -/
def updateIssueParamsJson (p : UpdateIssueParams) : Json :=
  .obj (
    optField "subject" (p.subject.map .str) ++
    optField "description" (p.description.map .str) ++
    optField "tracker_id" (p.tracker_id.map .num) ++
    optField "status_id" (p.status_id.map .num) ++
    optField "priority_id" (p.priority_id.map .num) ++
    optField "assigned_to_id" (p.assigned_to_id.map .num) ++
    optField "category_id" (p.category_id.map .num) ++
    optField "parent_issue_id" (p.parent_issue_id.map .num) ++
    optField "estimated_hours" (p.estimated_hours.map .num) ++
    optField "start_date" (p.start_date.map .str) ++
    optField "due_date" (p.due_date.map .str) ++
    optField "done_ratio" (p.done_ratio.map .num) ++
    optField "notes" (p.notes.map .str) ++
    optField "private_notes" (p.private_notes.map .bool))

/-- Embedding of `RedmineClient.updateIssue`: PUT `/issues/{id}.json` with
body `{issue: params}`. -/
def RedmineClient.updateIssue (c : RedmineClient) (id : Int)
    (params : UpdateIssueParams) : HttpRequest :=
  c.buildRequest "PUT" ("/issues/" ++ toString id ++ ".json")
    (some (.obj [("issue", updateIssueParamsJson params)]))

/-- An HTTP response as `fetch` resolves it: status, headers (names
normalized to lower case by the platform), body text. -/
structure HttpResponse where
  status : Nat
  headers : List (String × String)
  bodyText : String
deriving DecidableEq, Repr

/-- `response.headers.get(key)`. -/
def respHeader (r : HttpResponse) (key : String) : Option String :=
  (r.headers.find? (fun kv => kv.1 = key)).map (fun kv => kv.2)

/-- `response.ok`: status in the inclusive range 200-299. -/
def responseOk (r : HttpResponse) : Bool :=
  200 ≤ r.status && r.status ≤ 299

/-- The response-handling tail of `RedmineClient.request`, parametric in
the platform JSON parser (`response.json()`): non-2xx throws
`RedmineApiError`; 2xx with status 204 or content-length `0` returns the
empty object without parsing; otherwise the parse result, a parse failure
becoming a `decode` error. -/
def handleResponse (jsonParse : String → Except String Json)
    (r : HttpResponse) : Except RmError Json :=
  if !(responseOk r) then
    .error (.redmineApi r.status r.bodyText)
  else if r.status = 204 ∨ respHeader r "content-length" = some "0" then
    .ok (.obj [])
  else
    match jsonParse r.bodyText with
    | .ok j => .ok j
    | .error m => .error (.decode m)

/-- The network: resolves a request to a response, or rejects (DNS,
connection refused, ...) with a transport-level error. -/
abbrev Net := HttpRequest → Except RmError HttpResponse

/-- The body of a tool handler's `try` block: resolve credentials and
construct the client, issue the one request the chosen client method
builds, and handle the response. -/
def toolPipeline (extra : Extra) (call : RedmineClient → HttpRequest)
    (net : Net) (jsonParse : String → Except String Json) : Except RmError Json := do
  let c ← getClientFromExtra extra
  let resp ← net (call c)
  handleResponse jsonParse resp

/-- One element of a tool response's `content` array. -/
structure ToolContent where
  type : String
  text : String
deriving DecidableEq, Repr

/-- A tool response envelope. On the success path the source omits the
`isError` property, which MCP reads as false; `isError := false` models
that omission. -/
structure ToolResponse where
  content : List ToolContent
  isError : Bool
deriving Repr

/-- The uniform try/catch of every tool handler: a successful result is
serialized as text; any thrown error is caught and returned as an
error-flagged response whose text prefixes the error's message. -/
def runTool (outcome : Except RmError Json) : ToolResponse :=
  match outcome with
  | .ok j => { content := [{ type := "text", text := renderJson j }], isError := false }
  | .error e => { content := [{ type := "text", text := "エラー: " ++ e.message }], isError := true }

/-- A whole tool invocation: pipeline under the handler's try/catch. -/
def runToolCall (extra : Extra) (call : RedmineClient → HttpRequest)
    (net : Net) (jsonParse : String → Except String Json) : ToolResponse :=
  runTool (toolPipeline extra call net jsonParse)

/-- The client call made by the `list_projects` handler: forwards its
three optional arguments as the `listProjects` parameter object. -/
def list_projects_call (args : ListProjectsParams) (c : RedmineClient) : HttpRequest :=
  c.listProjects (some { offset := args.offset, limit := args.limit,
                         «include» := args.«include» })

/-- The `list_projects` handler. -/
def list_projects_handler (args : ListProjectsParams) (extra : Extra)
    (net : Net) (jsonParse : String → Except String Json) : ToolResponse :=
  runToolCall extra (list_projects_call args) net jsonParse

/-- Arguments of the `get_project` tool. -/
structure GetProjectArgs where
  id : String
  «include» : Option String := none
deriving DecidableEq, Repr

/-- The client call made by the `get_project` handler. -/
def get_project_call (args : GetProjectArgs) (c : RedmineClient) : HttpRequest :=
  c.getProject args.id args.«include»

/-- The `get_project` handler. -/
def get_project_handler (args : GetProjectArgs) (extra : Extra)
    (net : Net) (jsonParse : String → Except String Json) : ToolResponse :=
  runToolCall extra (get_project_call args) net jsonParse

/-- The client call made by the `list_issues` handler: forwards its eight
optional arguments as the `listIssues` parameter object. -/
def list_issues_call (args : ListIssuesParams) (c : RedmineClient) : HttpRequest :=
  c.listIssues (some { project_id := args.project_id,
                       status_id := args.status_id,
                       assigned_to_id := args.assigned_to_id,
                       tracker_id := args.tracker_id,
                       offset := args.offset, limit := args.limit,
                       sort := args.sort, «include» := args.«include» })

/-- The `list_issues` handler. -/
def list_issues_handler (args : ListIssuesParams) (extra : Extra)
    (net : Net) (jsonParse : String → Except String Json) : ToolResponse :=
  runToolCall extra (list_issues_call args) net jsonParse

/-- Arguments of the `get_issue` tool. -/
structure GetIssueArgs where
  id : Int
  «include» : Option String := none
deriving DecidableEq, Repr

/-- The client call made by the `get_issue` handler. -/
def get_issue_call (args : GetIssueArgs) (c : RedmineClient) : HttpRequest :=
  c.getIssue args.id args.«include»

/-- The `get_issue` handler. -/
def get_issue_handler (args : GetIssueArgs) (extra : Extra)
    (net : Net) (jsonParse : String → Except String Json) : ToolResponse :=
  runToolCall extra (get_issue_call args) net jsonParse

/-- The client call made by the `create_issue` handler: forwards its
arguments as the create parameter object. -/
def create_issue_call (args : CreateIssueParams) (c : RedmineClient) : HttpRequest :=
  c.createIssue args

/-- The `create_issue` handler. -/
def create_issue_handler (args : CreateIssueParams) (extra : Extra)
    (net : Net) (jsonParse : String → Except String Json) : ToolResponse :=
  runToolCall extra (create_issue_call args) net jsonParse

/-- Arguments of the `update_issue` tool: the issue id plus every
updatable field. -/
structure UpdateIssueArgs where
  id : Int
  subject : Option String := none
  description : Option String := none
  tracker_id : Option Int := none
  status_id : Option Int := none
  priority_id : Option Int := none
  assigned_to_id : Option Int := none
  category_id : Option Int := none
  parent_issue_id : Option Int := none
  estimated_hours : Option Int := none
  start_date : Option String := none
  due_date : Option String := none
  done_ratio : Option Int := none
  notes : Option String := none
  private_notes : Option Bool := none
deriving DecidableEq, Repr

/-- The rest-destructuring `const { id, ...updateParams } = args`. -/
def UpdateIssueArgs.updateParams (a : UpdateIssueArgs) : UpdateIssueParams :=
  { subject := a.subject, description := a.description, tracker_id := a.tracker_id,
    status_id := a.status_id, priority_id := a.priority_id,
    assigned_to_id := a.assigned_to_id, category_id := a.category_id,
    parent_issue_id := a.parent_issue_id, estimated_hours := a.estimated_hours,
    start_date := a.start_date, due_date := a.due_date, done_ratio := a.done_ratio,
    notes := a.notes, private_notes := a.private_notes }

/-- The client call made by the `update_issue` handler: destructures the
id out of the arguments and forwards the rest. -/
def update_issue_call (args : UpdateIssueArgs) (c : RedmineClient) : HttpRequest :=
  c.updateIssue args.id args.updateParams

/-- The `update_issue` handler. -/
def update_issue_handler (args : UpdateIssueArgs) (extra : Extra)
    (net : Net) (jsonParse : String → Except String Json) : ToolResponse :=
  runToolCall extra (update_issue_call args) net jsonParse

/-- Substring containment, used to state that an error text carries a
status code or a body verbatim. -/
def containsStr (s sub : String) : Prop :=
  ∃ pre post, s = pre ++ sub ++ post

/-- The error envelope the catch block of every handler returns. -/
def errorEnvelope (e : RmError) : ToolResponse :=
  { content := [{ type := "text", text := "エラー: " ++ e.message }], isError := true }

/-! ## Lemmas -/

theorem char_toNat_lt (c : Char) : c.toNat < 1114112 := by
  have h := c.valid
  simp only [Char.toNat]
  rcases h with h | h <;> omega

theorem utf8Bytes_lt (c : Nat) (hc : c < 1114112) : ∀ b ∈ utf8Bytes c, b < 256 := by
  intro b hb
  rw [utf8Bytes] at hb
  split at hb
  · simp at hb; omega
  · split at hb
    · simp at hb; rcases hb with h | h <;> omega
    · split at hb
      · simp at hb; rcases hb with h | h | h <;> omega
      · simp at hb; rcases hb with h | h | h | h <;> omega

theorem hexDigit_safe : ∀ m, m < 16 → hexDigit m ≠ '&' ∧ hexDigit m ≠ '=' ∧ hexDigit m ≠ '?' := by
  decide

theorem encodeChar_safe (c : Char) : ∀ x ∈ encodeChar c, x ≠ '&' ∧ x ≠ '=' ∧ x ≠ '?' := by
  intro x hx
  rw [encodeChar] at hx
  by_cases hsp : c = ' '
  · rw [if_pos hsp] at hx
    simp at hx; subst hx; exact ⟨by decide, by decide, by decide⟩
  · rw [if_neg hsp] at hx
    by_cases hsafe : safeChar c = true
    · rw [if_pos hsafe] at hx
      simp at hx
      subst hx
      refine ⟨?_, ?_, ?_⟩ <;> rintro rfl <;> exact absurd hsafe (by decide)
    · rw [if_neg hsafe, List.mem_flatMap] at hx
      obtain ⟨b, hb, hx⟩ := hx
      have hb256 : b < 256 := utf8Bytes_lt c.toNat (char_toNat_lt c) b hb
      simp at hx
      rcases hx with rfl | rfl | rfl
      · exact ⟨by decide, by decide, by decide⟩
      · exact hexDigit_safe (b / 16) (by omega)
      · exact hexDigit_safe (b % 16) (by omega)

theorem encodeL_safe (s : String) : ∀ x ∈ encodeL s, x ≠ '&' ∧ x ≠ '=' ∧ x ≠ '?' := by
  intro x hx
  rw [encodeL, List.mem_flatMap] at hx
  obtain ⟨c, _, hx⟩ := hx
  exact encodeChar_safe c x hx

theorem queryPart_no_amp (kv : String × String) : '&' ∉ queryPart kv := by
  intro h
  rw [queryPart, List.mem_append] at h
  rcases h with h | h
  · exact (encodeL_safe kv.1 '&' h).1 rfl
  · rw [List.mem_cons] at h
    rcases h with h | h
    · exact absurd h (by decide)
    · exact (encodeL_safe kv.2 '&' h).1 rfl

theorem queryPart_ne_nil (kv : String × String) : queryPart kv ≠ [] := by
  rw [queryPart]
  rcases encodeL kv.1 with _ | ⟨c, cs⟩ <;> simp

theorem renderQueryL_splitOn (pairs : List (String × String)) (h : pairs ≠ []) :
    (renderQueryL pairs).splitOn '&' = pairs.map queryPart := by
  rw [renderQueryL]
  refine List.splitOn_intercalate (pairs.map queryPart) '&' ?_ (by simpa using h)
  intro l hl
  rw [List.mem_map] at hl
  obtain ⟨kv, _, rfl⟩ := hl
  exact queryPart_no_amp kv

theorem renderQueryL_ne_nil (pairs : List (String × String)) (h : pairs ≠ []) :
    renderQueryL pairs ≠ [] := by
  intro hnil
  have hsplit := renderQueryL_splitOn pairs h
  rw [hnil] at hsplit
  have hempty : (([] : List Char).splitOn '&') = [[]] := rfl
  rw [hempty] at hsplit
  cases pairs with
  | nil => exact h rfl
  | cons kv rest =>
      rw [List.map_cons] at hsplit
      have : queryPart kv = [] := by
        have := List.head_eq_of_cons_eq hsplit.symm
        exact this
      exact queryPart_ne_nil kv this

theorem takeWhile_until_eq (l r : List Char) (h : ∀ c ∈ l, c ≠ '=') :
    (l ++ '=' :: r).takeWhile (fun c => c ≠ '=') = l := by
  induction l with
  | nil => simp
  | cons c cs ih =>
      rw [List.cons_append, List.takeWhile_cons, if_pos (by simp [h c (by simp)]),
        ih (fun x hx => h x (by simp [hx]))]

theorem takeWhile_queryPart (kv : String × String) :
    (queryPart kv).takeWhile (fun c => c ≠ '=') = encodeL kv.1 := by
  rw [queryPart]
  exact takeWhile_until_eq _ _ (fun c hc => (encodeL_safe kv.1 c hc).2.1)

theorem queryNames_renderQueryL (pairs : List (String × String)) :
    queryNames (renderQueryL pairs) = pairs.map (fun kv => encodeL kv.1) := by
  cases pairs with
  | nil => rfl
  | cons kv rest =>
      rw [queryNames, if_neg (renderQueryL_ne_nil _ (by simp)),
        renderQueryL_splitOn _ (by simp), List.map_map]
      exact List.map_congr_left (fun kv _ => takeWhile_queryPart kv)

theorem dropWhile_append_all {p : Char → Bool} (l r : List Char) (h : ∀ c ∈ l, p c) :
    (l ++ r).dropWhile p = r.dropWhile p := by
  induction l with
  | nil => rfl
  | cons c cs ih => simp [List.dropWhile, h c (by simp), ih (fun x hx => h x (by simp [hx]))]

theorem pathQuery_append (base : String) (pairs : List (String × String))
    (hb : ∀ c ∈ base.data, c ≠ '?') :
    pathQuery (base ++ querySuffix pairs) = renderQueryL pairs := by
  have hbp : ∀ c ∈ base.data, (fun c => decide (c ≠ '?')) c = true := by
    intro c hc; simp [hb c hc]
  by_cases hq : renderQueryL pairs = []
  · rw [querySuffix]
    have : renderQuery pairs = "" := by
      rw [renderQuery, hq]
    rw [this, if_pos rfl, pathQuery, String.data_append]
    have hdata : ("" : String).data = [] := rfl
    rw [hdata, dropWhile_append_all base.data [] hbp, hq]
    rfl
  · rw [querySuffix]
    have hne : renderQuery pairs ≠ "" := by
      rw [renderQuery]
      intro hcon
      exact hq (congrArg String.data hcon)
    rw [if_neg hne, pathQuery, String.data_append, String.data_append]
    have hdata : ("?" : String).data = ['?'] := rfl
    rw [hdata, List.cons_append, List.nil_append,
      dropWhile_append_all base.data ('?' :: (renderQuery pairs).data) hbp,
      List.dropWhile_cons]
    rw [if_neg (by simp)]
    rfl

theorem pathQueryNames_append (base : String) (pairs : List (String × String))
    (hb : ∀ c ∈ base.data, c ≠ '?') :
    pathQueryNames (base ++ querySuffix pairs) = pairs.map (fun kv => encodeL kv.1) := by
  rw [pathQueryNames, pathQuery_append base pairs hb, queryNames_renderQueryL]

theorem pathQueryNames_listProjects (op : Option ListProjectsParams) :
    pathQueryNames (listProjectsPath op) = (listProjectsQuery op).map (fun kv => encodeL kv.1) :=
  pathQueryNames_append "/projects.json" _ (by decide)

theorem pathQueryNames_listIssues (op : Option ListIssuesParams) :
    pathQueryNames (listIssuesPath op) = (listIssuesQuery op).map (fun kv => encodeL kv.1) :=
  pathQueryNames_append "/issues.json" _ (by decide)

theorem mem_setIfDefinedInt {name : String} {v : Option Int} {kv : String × String}
    (h : kv ∈ setIfDefinedInt name v) : ∃ n, v = some n ∧ kv = (name, toString n) := by
  cases v with
  | none => simp [setIfDefinedInt] at h
  | some n => simp [setIfDefinedInt] at h; exact ⟨n, rfl, h⟩

theorem mem_setIfDefinedStr {name : String} {v : Option String} {kv : String × String}
    (h : kv ∈ setIfDefinedStr name v) : ∃ s, v = some s ∧ kv = (name, s) := by
  cases v with
  | none => simp [setIfDefinedStr] at h
  | some s => simp [setIfDefinedStr] at h; exact ⟨s, rfl, h⟩

theorem mem_setIfTruthy {name : String} {v : Option String} {kv : String × String}
    (h : kv ∈ setIfTruthy name v) : ∃ s, v = some s ∧ s ≠ "" ∧ kv = (name, s) := by
  cases v with
  | none => simp [setIfTruthy] at h
  | some s =>
      rw [setIfTruthy] at h
      by_cases hs : s = ""
      · rw [if_neg (by simp [hs])] at h
        simp at h
      · rw [if_pos hs] at h
        simp at h
        exact ⟨s, rfl, hs, h⟩

theorem setIfTruthy_empty_eq_none (name : String) :
    setIfTruthy name (some "") = setIfTruthy name none := by
  rfl

theorem stripSlashL_append_slash (l : List Char) : stripSlashL (l ++ ['/']) = l := by
  rw [stripSlashL, if_pos (by simp), List.dropLast_concat]

theorem stripSlashL_of_no_slash (l : List Char) (h : l.getLast? ≠ some '/') :
    stripSlashL l = l :=
  if_neg h

theorem listProjectsQuery_mem {op : Option ListProjectsParams} {kv : String × String}
    (h : kv ∈ listProjectsQuery op) :
    (kv.1 = "offset" ∧ (op.bind fun p => p.offset).isSome) ∨
    (kv.1 = "limit" ∧ (op.bind fun p => p.limit).isSome) ∨
    (kv.1 = "include" ∧ (op.bind fun p => p.«include»).isSome) := by
  cases op with
  | none => simp [listProjectsQuery] at h
  | some p =>
      rw [listProjectsQuery, List.mem_append, List.mem_append] at h
      rcases h with (h | h) | h
      · obtain ⟨n, hn, rfl⟩ := mem_setIfDefinedInt h
        exact Or.inl ⟨rfl, by simp [hn]⟩
      · obtain ⟨n, hn, rfl⟩ := mem_setIfDefinedInt h
        exact Or.inr (Or.inl ⟨rfl, by simp [hn]⟩)
      · obtain ⟨s, hs, _, rfl⟩ := mem_setIfTruthy h
        exact Or.inr (Or.inr ⟨rfl, by simp [hs]⟩)

theorem listIssuesQuery_mem {op : Option ListIssuesParams} {kv : String × String}
    (h : kv ∈ listIssuesQuery op) :
    (kv.1 = "offset" ∧ (op.bind fun p => p.offset).isSome) ∨
    (kv.1 = "limit" ∧ (op.bind fun p => p.limit).isSome) ∨
    (kv.1 = "sort" ∧ (op.bind fun p => p.sort).isSome) ∨
    (kv.1 = "include" ∧ (op.bind fun p => p.«include»).isSome) ∨
    (kv.1 = "project_id" ∧ (op.bind fun p => p.project_id).isSome) ∨
    (kv.1 = "tracker_id" ∧ (op.bind fun p => p.tracker_id).isSome) ∨
    (kv.1 = "status_id" ∧ (op.bind fun p => p.status_id).isSome) ∨
    (kv.1 = "assigned_to_id" ∧ (op.bind fun p => p.assigned_to_id).isSome) := by
  cases op with
  | none => simp [listIssuesQuery] at h
  | some p =>
      rw [listIssuesQuery] at h
      simp only [List.mem_append] at h
      rcases h with ((((((h | h) | h) | h) | h) | h) | h) | h
      · obtain ⟨n, hn, rfl⟩ := mem_setIfDefinedInt h
        exact Or.inl ⟨rfl, by simp [hn]⟩
      · obtain ⟨n, hn, rfl⟩ := mem_setIfDefinedInt h
        exact Or.inr (Or.inl ⟨rfl, by simp [hn]⟩)
      · obtain ⟨s, hs, _, rfl⟩ := mem_setIfTruthy h
        exact Or.inr (Or.inr (Or.inl ⟨rfl, by simp [hs]⟩))
      · obtain ⟨s, hs, _, rfl⟩ := mem_setIfTruthy h
        exact Or.inr (Or.inr (Or.inr (Or.inl ⟨rfl, by simp [hs]⟩)))
      · obtain ⟨s, hs, rfl⟩ := mem_setIfDefinedStr h
        exact Or.inr (Or.inr (Or.inr (Or.inr (Or.inl ⟨rfl, by simp [hs]⟩))))
      · obtain ⟨s, hs, rfl⟩ := mem_setIfDefinedStr h
        exact Or.inr (Or.inr (Or.inr (Or.inr (Or.inr (Or.inl ⟨rfl, by simp [hs]⟩)))))
      · obtain ⟨s, hs, rfl⟩ := mem_setIfDefinedStr h
        exact Or.inr (Or.inr (Or.inr (Or.inr (Or.inr (Or.inr (Or.inl ⟨rfl, by simp [hs]⟩))))))
      · obtain ⟨s, hs, rfl⟩ := mem_setIfDefinedStr h
        exact Or.inr (Or.inr (Or.inr (Or.inr (Or.inr (Or.inr (Or.inr ⟨rfl, by simp [hs]⟩))))))

theorem toolPipeline_config_error {extra : Extra} {e : RmError}
    (h : getClientFromExtra extra = .error e) (call : RedmineClient → HttpRequest)
    (net : Net) (jsonParse : String → Except String Json) :
    toolPipeline extra call net jsonParse = .error e := by
  rw [toolPipeline, h]
  rfl

theorem toolPipeline_net_response {extra : Extra} {c : RedmineClient}
    (h : getClientFromExtra extra = .ok c) (call : RedmineClient → HttpRequest)
    {net : Net} {resp : HttpResponse} (hn : net (call c) = .ok resp)
    (jsonParse : String → Except String Json) :
    toolPipeline extra call net jsonParse = handleResponse jsonParse resp := by
  rw [toolPipeline, h]
  show (net (call c)) >>= (fun resp => handleResponse jsonParse resp) = _
  rw [hn]
  rfl

theorem runTool_error (e : RmError) : runTool (.error e) = errorEnvelope e :=
  rfl

theorem runTool_ok (j : Json) :
    runTool (.ok j) = { content := [{ type := "text", text := renderJson j }], isError := false } :=
  rfl

/-! ## Claims -/

/-- C8: for every header mapping and key, the resolved value is the head of
the list when the stored value is a list, the value itself when it is a
single string, and absent otherwise (also when the whole mapping is
unavailable). -/
theorem multi_valued_header_takes_head (hs : Headers) (key : String) :
    getHeaderValue none key = none ∧
    (∀ l, lookupHeader hs key = some (.arr l) → getHeaderValue (some hs) key = l.head?) ∧
    (∀ s, lookupHeader hs key = some (.str s) → getHeaderValue (some hs) key = some s) ∧
    (lookupHeader hs key = none → getHeaderValue (some hs) key = none) := by
  refine ⟨rfl, ?_, ?_, ?_⟩
  · intro l h
    simp only [getHeaderValue, h]
  · intro s h
    simp only [getHeaderValue, h]
  · intro h
    simp only [getHeaderValue, h]

/-- Witness for C8: a two-valued `x-redmine-url` header resolves to the
head of the list. -/
theorem multi_valued_header_takes_head_witness :
    getHeaderValue (some [("x-redmine-url", HeaderValue.arr ["https://a", "https://b"])])
      "x-redmine-url" = (["https://a", "https://b"] : List String).head? :=
  (multi_valued_header_takes_head
    [("x-redmine-url", HeaderValue.arr ["https://a", "https://b"])] "x-redmine-url").2.1
    ["https://a", "https://b"] rfl

/-- C9: a required header bound to an empty list resolves to no value, and
`getClientFromExtra` fails with exactly the configuration error of a
missing header, so the two cases are indistinguishable at the interface. -/
theorem empty_list_header_equals_absent :
    (∀ (hs : Headers) (key : String),
      lookupHeader hs key = some (.arr []) → getHeaderValue (some hs) key = none) ∧
    (∀ (extra : Extra) (hs : Headers), extraHeaders extra = some hs →
      (lookupHeader hs "x-redmine-url" = some (.arr []) ∨
       lookupHeader hs "x-redmine-api-key" = some (.arr [])) →
      getClientFromExtra extra = .error (.configuration configNotFoundMsg)) ∧
    (∀ (extra : Extra) (hs : Headers), extraHeaders extra = some hs →
      (lookupHeader hs "x-redmine-url" = none ∨
       lookupHeader hs "x-redmine-api-key" = none) →
      getClientFromExtra extra = .error (.configuration configNotFoundMsg)) := by
  have hval : ∀ (hs : Headers) (key : String),
      lookupHeader hs key = some (.arr []) → getHeaderValue (some hs) key = none := by
    intro hs key h
    simp only [getHeaderValue, h]
    rfl
  refine ⟨hval, ?_, ?_⟩
  · intro extra hs hextra hdisj
    simp only [getClientFromExtra, hextra]
    rcases hdisj with h | h
    · rw [if_pos (by rw [hval hs _ h]; rfl)]
    · rw [if_pos (by rw [hval hs _ h]; simp [jsTruthy])]
  · intro extra hs hextra hdisj
    have hnone : ∀ key, lookupHeader hs key = none → getHeaderValue (some hs) key = none := by
      intro key h
      simp only [getHeaderValue, h]
    simp only [getClientFromExtra, hextra]
    rcases hdisj with h | h
    · rw [if_pos (by rw [hnone _ h]; rfl)]
    · rw [if_pos (by rw [hnone _ h]; simp [jsTruthy])]

/-- Witness for C9: an `x-redmine-url` header holding an empty list makes
the invocation fail with the configuration error. -/
theorem empty_list_header_equals_absent_witness :
    getClientFromExtra
      { requestInfo := some { headers := some [("x-redmine-url", HeaderValue.arr [])] } } =
      .error (.configuration configNotFoundMsg) :=
  empty_list_header_equals_absent.2.1
    { requestInfo := some { headers := some [("x-redmine-url", HeaderValue.arr [])] } }
    [("x-redmine-url", HeaderValue.arr [])] rfl (Or.inl rfl)

/-- C5: a successful response with status 204 or content-length `0` yields
the empty result object for every JSON parser, so decoding is never
attempted and can never fail on such a response. -/
theorem empty_body_success_skips_decode (jsonParse : String → Except String Json)
    (r : HttpResponse) (hok : responseOk r = true)
    (hempty : r.status = 204 ∨ respHeader r "content-length" = some "0") :
    handleResponse jsonParse r = .ok (.obj []) := by
  rw [handleResponse, hok]
  simp only [Bool.not_true]
  rw [if_neg (by simp), if_pos hempty]

/-- Witness for C5: a 204 response with a parser that always fails still
decodes to the empty object. -/
theorem empty_body_success_skips_decode_witness :
    handleResponse (fun _ => .error "not json")
      { status := 204, headers := [], bodyText := "ignored" } = .ok (.obj []) :=
  empty_body_success_skips_decode (fun _ => .error "not json")
    { status := 204, headers := [], bodyText := "ignored" } rfl (Or.inl rfl)

/-- C4: construction strips exactly one trailing slash, so for any host
string (a hostname: nonempty, not ending in a slash) the clients built
from `https://host/` and `https://host` issue the same request URL
`https://host/issues.json`. -/
theorem base_url_trailing_slash_normalized (host apiKey : String)
    (hne : host ≠ "") (hslash : host.data.getLast? ≠ some '/') (hkey : apiKey ≠ "") :
    (∀ s : String, stripTrailingSlash (s ++ "/") = s) ∧
    ∃ c₁ c₂,
      RedmineClient.make ("https://" ++ host ++ "/") apiKey = .ok c₁ ∧
      RedmineClient.make ("https://" ++ host) apiKey = .ok c₂ ∧
      (c₁.listIssues none).url = "https://" ++ host ++ "/issues.json" ∧
      (c₂.listIssues none).url = "https://" ++ host ++ "/issues.json" := by
  have hstrip : ∀ s : String, stripTrailingSlash (s ++ "/") = s := by
    intro s
    show String.mk (stripSlashL (s ++ "/").data) = s
    rw [String.data_append]
    show String.mk (stripSlashL (s.data ++ ['/'])) = s
    rw [stripSlashL_append_slash]
  refine ⟨hstrip, ?_⟩
  have hhostdata : host.data ≠ [] := fun hc => hne (String.ext hc)
  have h1 : ("https://" ++ host ++ "/") ≠ "" := by
    intro hc
    have := congrArg String.data hc
    rw [String.data_append, String.data_append] at this
    simp at this
  have h2 : ("https://" ++ host) ≠ "" := by
    intro hc
    have := congrArg String.data hc
    rw [String.data_append] at this
    simp at this
  have hstrip2 : stripTrailingSlash ("https://" ++ host) = "https://" ++ host := by
    show String.mk (stripSlashL ("https://" ++ host).data) = _
    rw [String.data_append, stripSlashL_of_no_slash]
    · rfl
    · rw [List.getLast?_append_of_ne_nil ("https://".data) hhostdata]
      exact hslash
  refine ⟨{ baseUrl := "https://" ++ host, apiKey := apiKey },
          { baseUrl := "https://" ++ host, apiKey := apiKey }, ?_, ?_, ?_, ?_⟩
  · rw [RedmineClient.make, if_neg h1, if_neg hkey, hstrip ("https://" ++ host)]
  · rw [RedmineClient.make, if_neg h2, if_neg hkey, hstrip2]
  · show ("https://" ++ host) ++ listIssuesPath none = _
    rw [show listIssuesPath none = "/issues.json" from rfl]
  · show ("https://" ++ host) ++ listIssuesPath none = _
    rw [show listIssuesPath none = "/issues.json" from rfl]

/-- Witness for C4: exactly one trailing slash is stripped from a concrete
base URL. -/
theorem base_url_trailing_slash_normalized_witness :
    stripTrailingSlash ("https://redmine.example.com" ++ "/") = "https://redmine.example.com" :=
  (base_url_trailing_slash_normalized "redmine.example.com" "secret"
    (by decide) (by decide) (by decide)).1 "https://redmine.example.com"

/-- C1: whenever headers are unavailable or a required header is missing
or empty, credential resolution fails with a configuration error, and
every tool invocation returns that error envelope regardless of which
client method would be called and of the network — so no client method is
invoked and no request is issued. -/
theorem header_missing_no_request (extra : Extra)
    (h : extraHeaders extra = none ∨
         getHeaderValue (extraHeaders extra) "x-redmine-url" = none ∨
         getHeaderValue (extraHeaders extra) "x-redmine-url" = some "" ∨
         getHeaderValue (extraHeaders extra) "x-redmine-api-key" = none ∨
         getHeaderValue (extraHeaders extra) "x-redmine-api-key" = some "") :
    ∃ msg, getClientFromExtra extra = .error (.configuration msg) ∧
      ∀ (call : RedmineClient → HttpRequest) (net : Net)
        (jsonParse : String → Except String Json),
        runToolCall extra call net jsonParse = errorEnvelope (.configuration msg) := by
  have henv : ∀ msg, getClientFromExtra extra = .error (.configuration msg) →
      ∀ (call : RedmineClient → HttpRequest) (net : Net)
        (jsonParse : String → Except String Json),
        runToolCall extra call net jsonParse = errorEnvelope (.configuration msg) := by
    intro msg hc call net jsonParse
    rw [runToolCall, toolPipeline_config_error hc call net jsonParse, runTool_error]
  cases hextra : extraHeaders extra with
  | none =>
      refine ⟨headersUnavailableMsg, ?_, ?_⟩
      · simp only [getClientFromExtra, hextra]
      · exact henv _ (by simp only [getClientFromExtra, hextra])
  | some hs =>
      rw [hextra] at h
      have hcond : (!(jsTruthy (getHeaderValue (some hs) "x-redmine-url")) ||
          !(jsTruthy (getHeaderValue (some hs) "x-redmine-api-key"))) = true := by
        rcases h with h | h | h | h | h
        · exact absurd h (by simp)
        · rw [h]; rfl
        · rw [h]; rfl
        · rw [h]; simp [jsTruthy]
        · rw [h]; simp [jsTruthy]
      have hc : getClientFromExtra extra = .error (.configuration configNotFoundMsg) := by
        simp only [getClientFromExtra, hextra]
        rw [if_pos hcond]
      exact ⟨configNotFoundMsg, hc, henv _ hc⟩

/-- Witness for C1: an invocation with no request info at all fails with a
configuration error and yields the error envelope for every possible call
and network. -/
theorem header_missing_no_request_witness :
    ∃ msg, getClientFromExtra { requestInfo := none } = .error (.configuration msg) ∧
      ∀ (call : RedmineClient → HttpRequest) (net : Net)
        (jsonParse : String → Except String Json),
        runToolCall { requestInfo := none } call net jsonParse =
          errorEnvelope (.configuration msg) :=
  header_missing_no_request { requestInfo := none } (Or.inl rfl)

/-- C3: a non-2xx response makes the client fail with a `RedmineApiError`
whose message carries the status code and the raw body text, and any tool
invocation that receives such a response returns the error envelope, whose
text contains that message. -/
theorem non2xx_yields_redmine_api_error (jsonParse : String → Except String Json)
    (r : HttpResponse) (hfail : responseOk r = false) :
    handleResponse jsonParse r = .error (.redmineApi r.status r.bodyText) ∧
    containsStr (RmError.redmineApi r.status r.bodyText).message (toString r.status) ∧
    containsStr (RmError.redmineApi r.status r.bodyText).message r.bodyText ∧
    containsStr ("エラー: " ++ (RmError.redmineApi r.status r.bodyText).message)
      ((RmError.redmineApi r.status r.bodyText).message) ∧
    ∀ (extra : Extra) (c : RedmineClient) (call : RedmineClient → HttpRequest) (net : Net),
      getClientFromExtra extra = .ok c → net (call c) = .ok r →
      runToolCall extra call net jsonParse = errorEnvelope (.redmineApi r.status r.bodyText) := by
  have hresp : handleResponse jsonParse r = .error (.redmineApi r.status r.bodyText) := by
    rw [handleResponse, hfail]
    rfl
  refine ⟨hresp, ?_, ?_, ?_, ?_⟩
  · exact ⟨"Redmine API error: ", " - " ++ r.bodyText, by
      rw [RmError.message]
      rw [String.append_assoc, String.append_assoc]⟩
  · exact ⟨"Redmine API error: " ++ toString r.status ++ " - ", "", by
      rw [RmError.message]
      simp⟩
  · exact ⟨"エラー: ", "", by simp⟩
  · intro extra c call net hclient hnet
    rw [runToolCall, toolPipeline_net_response hclient call hnet jsonParse, hresp, runTool_error]

/-- Witness for C3: a 422 validation failure surfaces as a
`RedmineApiError` carrying 422 and the body. -/
theorem non2xx_yields_redmine_api_error_witness :
    handleResponse (fun _ => .error "unused")
      { status := 422, headers := [], bodyText := "Validation failed" } =
      .error (.redmineApi 422 "Validation failed") :=
  (non2xx_yields_redmine_api_error (fun _ => .error "unused")
    { status := 422, headers := [], bodyText := "Validation failed" } rfl).1

/-- C6: in each of the six tool handlers every pipeline error is caught
and converted into an error-flagged envelope whose text contains the
error's message, and every success is returned without the error flag; the
handlers are total functions of their inputs, so no failure escapes one
invocation. -/
theorem handler_catches_every_error (extra : Extra) (net : Net)
    (jsonParse : String → Except String Json) :
    (∀ e : RmError,
      containsStr (((errorEnvelope e).content.headD (ToolContent.mk "" "")).text) e.message) ∧
    (∀ args e, toolPipeline extra (list_projects_call args) net jsonParse = .error e →
      list_projects_handler args extra net jsonParse = errorEnvelope e) ∧
    (∀ args e, toolPipeline extra (get_project_call args) net jsonParse = .error e →
      get_project_handler args extra net jsonParse = errorEnvelope e) ∧
    (∀ args e, toolPipeline extra (list_issues_call args) net jsonParse = .error e →
      list_issues_handler args extra net jsonParse = errorEnvelope e) ∧
    (∀ args e, toolPipeline extra (get_issue_call args) net jsonParse = .error e →
      get_issue_handler args extra net jsonParse = errorEnvelope e) ∧
    (∀ args e, toolPipeline extra (create_issue_call args) net jsonParse = .error e →
      create_issue_handler args extra net jsonParse = errorEnvelope e) ∧
    (∀ args e, toolPipeline extra (update_issue_call args) net jsonParse = .error e →
      update_issue_handler args extra net jsonParse = errorEnvelope e) ∧
    (∀ args j, toolPipeline extra (list_projects_call args) net jsonParse = .ok j →
      list_projects_handler args extra net jsonParse =
        { content := [{ type := "text", text := renderJson j }], isError := false }) := by
  refine ⟨?_, ?_, ?_, ?_, ?_, ?_, ?_, ?_⟩
  · intro e
    exact ⟨"エラー: ", "", by simp [errorEnvelope]⟩
  all_goals
    intro args x hx
  · rw [list_projects_handler, runToolCall, hx, runTool_error]
  · rw [get_project_handler, runToolCall, hx, runTool_error]
  · rw [list_issues_handler, runToolCall, hx, runTool_error]
  · rw [get_issue_handler, runToolCall, hx, runTool_error]
  · rw [create_issue_handler, runToolCall, hx, runTool_error]
  · rw [update_issue_handler, runToolCall, hx, runTool_error]
  · rw [list_projects_handler, runToolCall, hx, runTool_ok]

/-- Witness for C6: with no headers available, the `list_projects` handler
returns the configuration error envelope instead of failing. -/
theorem handler_catches_every_error_witness :
    list_projects_handler {} { requestInfo := none }
      (fun _ => .error (.network "ECONNREFUSED")) (fun _ => .error "bad json") =
      errorEnvelope (.configuration headersUnavailableMsg) :=
  (handler_catches_every_error { requestInfo := none }
    (fun _ => .error (.network "ECONNREFUSED")) (fun _ => .error "bad json")).2.1
    {} (.configuration headersUnavailableMsg) rfl

/-- C7: the six operations issue exactly the tabulated method and path
(with the optional query suffix for GET operations), always carry the
`X-Redmine-API-Key` and `Content-Type: application/json` headers, and the
POST/PUT operations carry the JSON body `\x7bissue: params\x7d`. -/
theorem six_operations_method_path_headers_body (c : RedmineClient)
    (lpp : Option ListProjectsParams) (pid : String) (pinc : Option String)
    (lip : Option ListIssuesParams) (iid : Int) (iinc : Option String)
    (cp : CreateIssueParams) (uid : Int) (up : UpdateIssueParams) :
    c.listProjects lpp =
      { method := "GET",
        url := c.baseUrl ++ ("/projects.json" ++ querySuffix (listProjectsQuery lpp)),
        headers := [("X-Redmine-API-Key", c.apiKey), ("Content-Type", "application/json")],
        body := none } ∧
    c.getProject pid pinc =
      { method := "GET",
        url := c.baseUrl ++ ("/projects/" ++ pid ++ ".json" ++ querySuffix (getProjectQuery pinc)),
        headers := [("X-Redmine-API-Key", c.apiKey), ("Content-Type", "application/json")],
        body := none } ∧
    c.listIssues lip =
      { method := "GET",
        url := c.baseUrl ++ ("/issues.json" ++ querySuffix (listIssuesQuery lip)),
        headers := [("X-Redmine-API-Key", c.apiKey), ("Content-Type", "application/json")],
        body := none } ∧
    c.getIssue iid iinc =
      { method := "GET",
        url := c.baseUrl ++ ("/issues/" ++ toString iid ++ ".json" ++ querySuffix (getIssueQuery iinc)),
        headers := [("X-Redmine-API-Key", c.apiKey), ("Content-Type", "application/json")],
        body := none } ∧
    c.createIssue cp =
      { method := "POST",
        url := c.baseUrl ++ "/issues.json",
        headers := [("X-Redmine-API-Key", c.apiKey), ("Content-Type", "application/json")],
        body := some (.obj [("issue", createIssueParamsJson cp)]) } ∧
    c.updateIssue uid up =
      { method := "PUT",
        url := c.baseUrl ++ ("/issues/" ++ toString uid ++ ".json"),
        headers := [("X-Redmine-API-Key", c.apiKey), ("Content-Type", "application/json")],
        body := some (.obj [("issue", updateIssueParamsJson up)]) } :=
  ⟨rfl, rfl, rfl, rfl, rfl, rfl⟩

/-- C2: an optional parameter left undefined produces no query parameter
with its name in the built request path of the list operations — exact
absence from the query string, stated on the parsed parameter names of the
path. -/
theorem omitted_params_absent_from_query (op : Option ListProjectsParams)
    (oi : Option ListIssuesParams) :
    ((op.bind fun p => p.offset) = none →
      "offset".data ∉ pathQueryNames (listProjectsPath op)) ∧
    ((op.bind fun p => p.limit) = none →
      "limit".data ∉ pathQueryNames (listProjectsPath op)) ∧
    ((op.bind fun p => p.«include») = none →
      "include".data ∉ pathQueryNames (listProjectsPath op)) ∧
    ((oi.bind fun p => p.offset) = none →
      "offset".data ∉ pathQueryNames (listIssuesPath oi)) ∧
    ((oi.bind fun p => p.limit) = none →
      "limit".data ∉ pathQueryNames (listIssuesPath oi)) ∧
    ((oi.bind fun p => p.sort) = none →
      "sort".data ∉ pathQueryNames (listIssuesPath oi)) ∧
    ((oi.bind fun p => p.«include») = none →
      "include".data ∉ pathQueryNames (listIssuesPath oi)) ∧
    ((oi.bind fun p => p.project_id) = none →
      "project_id".data ∉ pathQueryNames (listIssuesPath oi)) ∧
    ((oi.bind fun p => p.tracker_id) = none →
      "tracker_id".data ∉ pathQueryNames (listIssuesPath oi)) ∧
    ((oi.bind fun p => p.status_id) = none →
      "status_id".data ∉ pathQueryNames (listIssuesPath oi)) ∧
    ((oi.bind fun p => p.assigned_to_id) = none →
      "assigned_to_id".data ∉ pathQueryNames (listIssuesPath oi)) := by
  have hlp : ∀ (name : String), (∀ kv ∈ listProjectsQuery op, encodeL kv.1 ≠ name.data) →
      name.data ∉ pathQueryNames (listProjectsPath op) := by
    intro name hkeys hmem
    rw [pathQueryNames_listProjects, List.mem_map] at hmem
    obtain ⟨kv, hkv, henc⟩ := hmem
    exact hkeys kv hkv henc
  have hli : ∀ (name : String), (∀ kv ∈ listIssuesQuery oi, encodeL kv.1 ≠ name.data) →
      name.data ∉ pathQueryNames (listIssuesPath oi) := by
    intro name hkeys hmem
    rw [pathQueryNames_listIssues, List.mem_map] at hmem
    obtain ⟨kv, hkv, henc⟩ := hmem
    exact hkeys kv hkv henc
  refine ⟨?_, ?_, ?_, ?_, ?_, ?_, ?_, ?_, ?_, ?_, ?_⟩
  · intro h
    refine hlp _ (fun kv hkv henc => ?_)
    rcases listProjectsQuery_mem hkv with ⟨hk, hs⟩ | ⟨hk, _⟩ | ⟨hk, _⟩
    · rw [h] at hs; simp at hs
    · rw [hk] at henc; exact absurd henc (by decide)
    · rw [hk] at henc; exact absurd henc (by decide)
  · intro h
    refine hlp _ (fun kv hkv henc => ?_)
    rcases listProjectsQuery_mem hkv with ⟨hk, _⟩ | ⟨hk, hs⟩ | ⟨hk, _⟩
    · rw [hk] at henc; exact absurd henc (by decide)
    · rw [h] at hs; simp at hs
    · rw [hk] at henc; exact absurd henc (by decide)
  · intro h
    refine hlp _ (fun kv hkv henc => ?_)
    rcases listProjectsQuery_mem hkv with ⟨hk, _⟩ | ⟨hk, _⟩ | ⟨hk, hs⟩
    · rw [hk] at henc; exact absurd henc (by decide)
    · rw [hk] at henc; exact absurd henc (by decide)
    · rw [h] at hs; simp at hs
  · intro h
    refine hli _ (fun kv hkv henc => ?_)
    rcases listIssuesQuery_mem hkv with ⟨hk, hs⟩ | ⟨hk, _⟩ | ⟨hk, _⟩ | ⟨hk, _⟩ | ⟨hk, _⟩ | ⟨hk, _⟩ | ⟨hk, _⟩ | ⟨hk, _⟩
    · rw [h] at hs; simp at hs
    all_goals rw [hk] at henc; exact absurd henc (by decide)
  · intro h
    refine hli _ (fun kv hkv henc => ?_)
    rcases listIssuesQuery_mem hkv with ⟨hk, _⟩ | ⟨hk, hs⟩ | ⟨hk, _⟩ | ⟨hk, _⟩ | ⟨hk, _⟩ | ⟨hk, _⟩ | ⟨hk, _⟩ | ⟨hk, _⟩
    · rw [hk] at henc; exact absurd henc (by decide)
    · rw [h] at hs; simp at hs
    all_goals rw [hk] at henc; exact absurd henc (by decide)
  · intro h
    refine hli _ (fun kv hkv henc => ?_)
    rcases listIssuesQuery_mem hkv with ⟨hk, _⟩ | ⟨hk, _⟩ | ⟨hk, hs⟩ | ⟨hk, _⟩ | ⟨hk, _⟩ | ⟨hk, _⟩ | ⟨hk, _⟩ | ⟨hk, _⟩
    · rw [hk] at henc; exact absurd henc (by decide)
    · rw [hk] at henc; exact absurd henc (by decide)
    · rw [h] at hs; simp at hs
    all_goals rw [hk] at henc; exact absurd henc (by decide)
  · intro h
    refine hli _ (fun kv hkv henc => ?_)
    rcases listIssuesQuery_mem hkv with ⟨hk, _⟩ | ⟨hk, _⟩ | ⟨hk, _⟩ | ⟨hk, hs⟩ | ⟨hk, _⟩ | ⟨hk, _⟩ | ⟨hk, _⟩ | ⟨hk, _⟩
    · rw [hk] at henc; exact absurd henc (by decide)
    · rw [hk] at henc; exact absurd henc (by decide)
    · rw [hk] at henc; exact absurd henc (by decide)
    · rw [h] at hs; simp at hs
    all_goals rw [hk] at henc; exact absurd henc (by decide)
  · intro h
    refine hli _ (fun kv hkv henc => ?_)
    rcases listIssuesQuery_mem hkv with ⟨hk, _⟩ | ⟨hk, _⟩ | ⟨hk, _⟩ | ⟨hk, _⟩ | ⟨hk, hs⟩ | ⟨hk, _⟩ | ⟨hk, _⟩ | ⟨hk, _⟩
    · rw [hk] at henc; exact absurd henc (by decide)
    · rw [hk] at henc; exact absurd henc (by decide)
    · rw [hk] at henc; exact absurd henc (by decide)
    · rw [hk] at henc; exact absurd henc (by decide)
    · rw [h] at hs; simp at hs
    all_goals rw [hk] at henc; exact absurd henc (by decide)
  · intro h
    refine hli _ (fun kv hkv henc => ?_)
    rcases listIssuesQuery_mem hkv with ⟨hk, _⟩ | ⟨hk, _⟩ | ⟨hk, _⟩ | ⟨hk, _⟩ | ⟨hk, _⟩ | ⟨hk, hs⟩ | ⟨hk, _⟩ | ⟨hk, _⟩
    · rw [hk] at henc; exact absurd henc (by decide)
    · rw [hk] at henc; exact absurd henc (by decide)
    · rw [hk] at henc; exact absurd henc (by decide)
    · rw [hk] at henc; exact absurd henc (by decide)
    · rw [hk] at henc; exact absurd henc (by decide)
    · rw [h] at hs; simp at hs
    all_goals rw [hk] at henc; exact absurd henc (by decide)
  · intro h
    refine hli _ (fun kv hkv henc => ?_)
    rcases listIssuesQuery_mem hkv with ⟨hk, _⟩ | ⟨hk, _⟩ | ⟨hk, _⟩ | ⟨hk, _⟩ | ⟨hk, _⟩ | ⟨hk, _⟩ | ⟨hk, hs⟩ | ⟨hk, _⟩
    · rw [hk] at henc; exact absurd henc (by decide)
    · rw [hk] at henc; exact absurd henc (by decide)
    · rw [hk] at henc; exact absurd henc (by decide)
    · rw [hk] at henc; exact absurd henc (by decide)
    · rw [hk] at henc; exact absurd henc (by decide)
    · rw [hk] at henc; exact absurd henc (by decide)
    · rw [h] at hs; simp at hs
    · rw [hk] at henc; exact absurd henc (by decide)
  · intro h
    refine hli _ (fun kv hkv henc => ?_)
    rcases listIssuesQuery_mem hkv with ⟨hk, _⟩ | ⟨hk, _⟩ | ⟨hk, _⟩ | ⟨hk, _⟩ | ⟨hk, _⟩ | ⟨hk, _⟩ | ⟨hk, _⟩ | ⟨hk, hs⟩
    · rw [hk] at henc; exact absurd henc (by decide)
    · rw [hk] at henc; exact absurd henc (by decide)
    · rw [hk] at henc; exact absurd henc (by decide)
    · rw [hk] at henc; exact absurd henc (by decide)
    · rw [hk] at henc; exact absurd henc (by decide)
    · rw [hk] at henc; exact absurd henc (by decide)
    · rw [hk] at henc; exact absurd henc (by decide)
    · rw [h] at hs; simp at hs

/-- Witness for C2: with no parameter object at all, `offset` is absent
from the query string of the built path. -/
theorem omitted_params_absent_from_query_witness :
    "offset".data ∉ pathQueryNames (listProjectsPath none) :=
  (omitted_params_absent_from_query none none).1 rfl

/-- C10: the absent/empty boundary is not uniform: a numeric `offset` or
`limit` equal to 0 is included in the query (presence tested with the
`!== undefined` idiom), while a `sort` or `include` equal to the empty
string is suppressed exactly as if it were absent (presence tested by
truthiness). -/
theorem zero_included_empty_string_suppressed (p : ListIssuesParams)
    (q : ListProjectsParams) (id : Int) :
    (p.offset = some 0 →
      ("offset", "0") ∈ listIssuesQuery (some p) ∧
      "offset".data ∈ pathQueryNames (listIssuesPath (some p))) ∧
    (p.limit = some 0 → ("limit", "0") ∈ listIssuesQuery (some p)) ∧
    (q.offset = some 0 → ("offset", "0") ∈ listProjectsQuery (some q)) ∧
    listIssuesQuery (some { p with sort := some "" }) =
      listIssuesQuery (some { p with sort := none }) ∧
    listIssuesQuery (some { p with «include» := some "" }) =
      listIssuesQuery (some { p with «include» := none }) ∧
    listProjectsQuery (some { q with «include» := some "" }) =
      listProjectsQuery (some { q with «include» := none }) ∧
    getIssuePath id (some "") = getIssuePath id none := by
  refine ⟨?_, ?_, ?_, ?_, ?_, ?_, ?_⟩
  · intro h
    have hmem : ("offset", "0") ∈ listIssuesQuery (some p) := by
      rw [listIssuesQuery]
      refine List.mem_append_left _ (List.mem_append_left _ (List.mem_append_left _
        (List.mem_append_left _ (List.mem_append_left _ (List.mem_append_left _
          (List.mem_append_left _ ?_))))))
      rw [h]
      simp only [setIfDefinedInt, List.mem_singleton]
      decide
    refine ⟨hmem, ?_⟩
    rw [pathQueryNames_listIssues, List.mem_map]
    exact ⟨("offset", "0"), hmem, by decide⟩
  · intro h
    rw [listIssuesQuery]
    refine List.mem_append_left _ (List.mem_append_left _ (List.mem_append_left _
      (List.mem_append_left _ (List.mem_append_left _ (List.mem_append_left _
        (List.mem_append_right _ ?_))))))
    rw [h]
    simp only [setIfDefinedInt, List.mem_singleton]
    decide
  · intro h
    rw [listProjectsQuery]
    refine List.mem_append_left _ (List.mem_append_left _ ?_)
    rw [h]
    simp only [setIfDefinedInt, List.mem_singleton]
    decide
  · simp [listIssuesQuery, setIfTruthy]
  · simp [listIssuesQuery, setIfTruthy]
  · simp [listProjectsQuery, setIfTruthy]
  · rfl

/-- Witness for C10: `offset := 0` appears as `offset=0` in the query
pairs and the parameter name appears in the built path. -/
theorem zero_included_empty_string_suppressed_witness :
    ("offset", "0") ∈ listIssuesQuery (some { offset := some 0 }) ∧
    "offset".data ∈ pathQueryNames (listIssuesPath (some { offset := some 0 })) :=
  (zero_included_empty_string_suppressed { offset := some 0 } {} 1).1 rfl
